import Mathlib

/-!
Shallow embedding of the validation engine of the `kitium-ai/schemas`
repository (`src/validators/index.ts` and the batch-validator utility in the
middleware utilities file), together with theorems settling the frozen claims
about it.

JavaScript values are modelled by the inductive type `Value`; a Zod schema is
modelled by its only observable behaviour at this boundary: applying it to a
value either returns a parsed value, throws a `ZodError` carrying a list of
issues, or throws some other exception (`ParseOutcome`).  Optional properties
of result objects are modelled with `Option`; a property explicitly assigned
`undefined` by the source is modelled as `none`.
-/

namespace Kitium

/-- A JavaScript runtime value, as far as the validators observe it. -/
inductive Value where
  | vUndefined : Value
  | vNull : Value
  | vBool (b : Bool) : Value
  | vNum (n : Int) : Value
  | vStr (s : String) : Value
  | vArr (elems : List Value) : Value
  | vObj (entries : List (String × Value)) : Value
deriving Repr

/-- JavaScript truthiness: `undefined`, `null`, `false`, `0` and `""` are
falsy; every object and array is truthy. -/
def Value.truthy : Value → Bool
  | .vUndefined => false
  | .vNull => false
  | .vBool b => b
  | .vNum n => n != 0
  | .vStr s => s != ""
  | .vArr _ => true
  | .vObj _ => true

/-- `(data as Record<string, unknown>)?.[key]`: property access with optional
chaining; yields `undefined` on missing keys and on non-object receivers. -/
def Value.getKey (data : Value) (key : String) : Value :=
  match data with
  | .vObj entries =>
      match entries.lookup key with
      | some v => v
      | none => .vUndefined
  | _ => .vUndefined

/-- One issue of a thrown `ZodError` (`err.path`, `err.message`, `err.code`). -/
structure Issue where
  path : List String
  message : String
  code : String
deriving DecidableEq, Repr

/-- Observable outcome of `schema.parse(data)`: a parsed value, a thrown
`ZodError` with its issue list, or a thrown non-`ZodError` exception. -/
inductive ParseOutcome where
  | ok (v : Value) : ParseOutcome
  | zodError (issues : List Issue) : ParseOutcome
  | thrown : ParseOutcome

/-- A schema is opaque to the engine: only its synchronous (`parse`) and
asynchronous (`parseAsync`) application behaviours matter. -/
structure Schema where
  parse : Value → ParseOutcome
  parseAsync : Value → ParseOutcome

/-- `ValidationErrorDetail` from `src/validators/index.ts`. -/
structure ValidationErrorDetail where
  field : String
  message : String
  code : String
deriving DecidableEq, Repr

/-- `ValidationResult<T>`: `success` plus optional `data` / `errors`
properties. -/
structure ValidationResult where
  success : Bool
  data : Option Value := none
  errors : Option (List ValidationErrorDetail) := none
deriving Repr

/-- `error.errors.map((err) => ({field: err.path.join('.'), message:
err.message, code: err.code}))`. -/
def normalizeIssues (issues : List Issue) : List ValidationErrorDetail :=
  issues.map (fun i =>
    { field := String.intercalate "." i.path, message := i.message, code := i.code })

/-- The synthetic detail produced when schema application throws a
non-`ZodError` exception. -/
def unknownErrorDetail : ValidationErrorDetail :=
  { field := "unknown"
    message := "An unknown validation error occurred"
    code := "UNKNOWN_ERROR" }

/-- `validate(schema, data)`. -/
def validate (schema : Schema) (data : Value) : ValidationResult :=
  match schema.parse data with
  | .ok v => { success := true, data := some v }
  | .zodError issues => { success := false, errors := some (normalizeIssues issues) }
  | .thrown => { success := false, errors := some [unknownErrorDetail] }

/-- `validateAsync(schema, data)`: same body over `schema.parseAsync`. -/
def validateAsync (schema : Schema) (data : Value) : ValidationResult :=
  match schema.parseAsync data with
  | .ok v => { success := true, data := some v }
  | .zodError issues => { success := false, errors := some (normalizeIssues issues) }
  | .thrown => { success := false, errors := some [unknownErrorDetail] }

/-- `formatValidationErrors(errors)`. -/
def formatValidationErrors (errors : List ValidationErrorDetail) : String :=
  String.intercalate "; " (errors.map (fun e => e.field ++ ": " ++ e.message))

/-- The `ValidationError` class: carries the structured detail list, sets
`name` and computes `message` from `message || formatValidationErrors(errors)`. -/
structure ValidationError where
  errors : List ValidationErrorDetail
  name : String
  message : String
deriving DecidableEq, Repr

/-- The `ValidationError` constructor; `message || ...` falls through both on
an absent and on an empty-string message argument. -/
def ValidationError.make (errors : List ValidationErrorDetail)
    (message : Option String) : ValidationError :=
  { errors := errors
    name := "ValidationError"
    message :=
      match message with
      | some m => if m = "" then formatValidationErrors errors else m
      | none => formatValidationErrors errors }

/-- An exception escaping `validateOrThrow`: either the raw `ZodError` from the
engine, a wrapped `ValidationError`, or some other exception. -/
inductive ThrownError where
  | zodErr (issues : List Issue) : ThrownError
  | validationErr (e : ValidationError) : ThrownError
  | otherErr : ThrownError

/-- `validateOrThrow(schema, data)`: the body is `return schema.parse(data)`,
so whatever `parse` throws escapes unchanged. -/
def validateOrThrow (schema : Schema) (data : Value) : Except ThrownError Value :=
  match schema.parse data with
  | .ok v => .ok v
  | .zodError issues => .error (.zodErr issues)
  | .thrown => .error .otherErr

/-- `isValid(schema, data)`: `try { schema.parse(data); return true } catch
{ return false }`. -/
def isValid (schema : Schema) (data : Value) : Bool :=
  match schema.parse data with
  | .ok _ => true
  | .zodError _ => false
  | .thrown => false

/-- `partialValidate(schema, data, fields?)`.  The `if (result.errors)` test is
true exactly when the property is present (a JS array is always truthy). -/
def partialValidate (schema : Schema) (data : Value)
    (fields : Option (List String)) : ValidationResult :=
  match fields with
  | none => validate schema data
  | some fs =>
      if fs.isEmpty then validate schema data
      else
        let result := validate schema data
        match result.errors with
        | some errs =>
            { result with errors := some (errs.filter (fun e => fs.contains e.field)) }
        | none => result

/-- `validateBatch(schema, items)`. -/
def validateBatch (schema : Schema) (items : List Value) : List ValidationResult :=
  items.map (fun item => validate schema item)

/-- `${key}.${err.field}` re-addressing used by `validateMultiple`. -/
def keyedDetail (key : String) (e : ValidationErrorDetail) : ValidationErrorDetail :=
  { e with field := key ++ "." ++ e.field }

/-- Loop body of `validateMultiple`: push prefixed errors for a failing key,
or record the validated value when it is present and truthy
(`else if (result.data)`). -/
def multiStep (data : Value)
    (acc : List ValidationErrorDetail × List (String × Value))
    (entry : String × Schema) :
    List ValidationErrorDetail × List (String × Value) :=
  let result := validate entry.2 (data.getKey entry.1)
  if !result.success && result.errors.isSome then
    (acc.1 ++ (result.errors.getD []).map (keyedDetail entry.1), acc.2)
  else
    match result.data with
    | some d => if d.truthy then (acc.1, acc.2 ++ [(entry.1, d)]) else acc
    | none => acc

/-- `validateMultiple(schemas, data)`; the schema map is an association list in
the iteration order of `Object.entries`. -/
def validateMultiple (schemas : List (String × Schema)) (data : Value) :
    ValidationResult :=
  let final := schemas.foldl (multiStep data) ([], [])
  { success := final.1.isEmpty
    data := if final.1.isEmpty then some (.vObj final.2) else none
    errors := if final.1.isEmpty then none else some final.1 }

/-- A cross-field rule `{condition, message, fields}`. -/
structure CrossFieldRule where
  condition : Value → Bool
  message : String
  fields : List String

/-- `CrossFieldValidationResult<T>`; `fieldDependencies` is always assigned
(an object built by `reduce`, possibly empty). -/
structure CrossFieldValidationResult where
  success : Bool
  data : Option Value
  errors : Option (List ValidationErrorDetail)
  fieldDependencies : List (String × List String)

/-- A cross-field error detail for one field of a failed rule. -/
def crossDetail (message : String) (field : String) : ValidationErrorDetail :=
  { field := field, message := message, code := "CROSS_FIELD_VALIDATION_FAILED" }

/-- Loop body of `validateWithCrossFields`: push one detail per field of each
rule whose condition is false. -/
def crossStep (data : Value) (acc : List ValidationErrorDetail)
    (rule : CrossFieldRule) : List ValidationErrorDetail :=
  if rule.condition data then acc
  else acc ++ rule.fields.map (crossDetail rule.message)

/-- `rules.reduce((acc, rule, idx) => {acc[rule_idx] = rule.fields ...})`. -/
def ruleDeps (rules : List CrossFieldRule) : List (String × List String) :=
  rules.enum.map (fun p => ("rule_" ++ toString p.1, p.2.fields))

/-- `validateWithCrossFields(schema, data, rules)`.  Rules run only under
`baseResult.success && data` — the input value itself must be truthy. -/
def validateWithCrossFields (schema : Schema) (data : Value)
    (rules : List CrossFieldRule) : CrossFieldValidationResult :=
  let baseResult := validate schema data
  let crossFieldErrors :=
    if baseResult.success && data.truthy then rules.foldl (crossStep data) []
    else []
  { success := baseResult.success && crossFieldErrors.isEmpty
    data :=
      if baseResult.success && crossFieldErrors.isEmpty then baseResult.data else none
    errors := some (baseResult.errors.getD [] ++ crossFieldErrors)
    fieldDependencies := ruleDeps rules }

/-- `validateConditional(schema, data, condition)`. -/
def validateConditional (schema : Schema) (data : Value)
    (condition : Value → Bool) : ValidationResult :=
  if !(condition data) then { success := true, data := some data }
  else validate schema data

/-- One element of the `details` array built by `createBatchValidator`;
`data` is `null` for a failed item. -/
structure BatchItemDetail where
  index : Nat
  success : Bool
  data : Value
  errors : List ValidationErrorDetail
deriving Repr

/-- `BatchValidationOutcome`: the aggregate object returned by the function
`createBatchValidator` produces. -/
structure BatchValidationOutcome where
  success : Bool
  data : List Value
  errors : List ValidationErrorDetail
  details : List BatchItemDetail
deriving Repr

/-- Per-item result of the batch validator (`schema.safeParse(item)` plus the
`"<index>."` re-addressing).  `safeParse` wraps only `ZodError`s; any other
exception escapes, modelled by `none`. -/
def batchItem (schema : Schema) (index : Nat) (item : Value) :
    Option BatchItemDetail :=
  match schema.parse item with
  | .ok v => some { index := index, success := true, data := v, errors := [] }
  | .zodError issues =>
      some { index := index, success := false, data := .vNull
             errors := issues.map (fun i =>
               { field := toString index ++ "." ++ String.intercalate "." i.path
                 message := i.message, code := i.code }) }
  | .thrown => none

/-- `createBatchValidator(schema)` applied to `items`; `none` models a
non-`ZodError` exception escaping the whole call. -/
def createBatchValidator (schema : Schema) (items : List Value) :
    Option BatchValidationOutcome :=
  match items.enum.mapM (fun p => batchItem schema p.1 p.2) with
  | none => none
  | some results =>
      let allErrors := (results.map (fun r => r.errors)).flatten
      let allData := (results.filter (fun r => r.success)).map (fun r => r.data)
      some { success := allErrors.isEmpty
             data := allData
             errors := allErrors
             details := results }

/-! ### Concrete schemas used in witnesses and counterexamples -/

/-- A schema accepting every value unchanged. -/
def idSchema : Schema := { parse := fun v => .ok v, parseAsync := fun v => .ok v }

/-- A sample issue at path `x`. -/
def exIssue : Issue := { path := ["x"], message := "Required", code := "invalid_type" }

/-- A sample issue at path `b`. -/
def exIssueB : Issue := { path := ["b"], message := "Too small", code := "too_small" }

/-- A schema rejecting every value with one issue at `x`. -/
def rejectSchema : Schema :=
  { parse := fun _ => .zodError [exIssue], parseAsync := fun _ => .zodError [exIssue] }

/-- A schema rejecting every value with one issue at `b`. -/
def rejectBSchema : Schema :=
  { parse := fun _ => .zodError [exIssueB], parseAsync := fun _ => .zodError [exIssueB] }

/-- A schema whose application always throws a non-`ZodError` exception. -/
def throwSchema : Schema := { parse := fun _ => .thrown, parseAsync := fun _ => .thrown }

/-- A schema accepting positive numbers and rejecting everything else with one
issue at `x`. -/
def positiveSchema : Schema :=
  { parse := fun v =>
      match v with
      | .vNum n => if 0 < n then .ok (.vNum n) else .zodError [exIssue]
      | _ => .zodError [exIssue]
    parseAsync := fun v =>
      match v with
      | .vNum n => if 0 < n then .ok (.vNum n) else .zodError [exIssue]
      | _ => .zodError [exIssue] }

lemma positiveSchema_issues (v : Value) (issues : List Issue)
    (h : positiveSchema.parse v = .zodError issues) : issues = [exIssue] := by
  cases v <;> simp only [positiveSchema] at h <;>
    first
      | (cases h; rfl)
      | (split at h
         · cases h
         · cases h
           rfl)

/-! ### Shared predicates and helper lemmas -/

/-- A schema engine is well formed when every `ZodError` it throws carries at
least one issue (Zod never throws an empty issue list from `parse`). -/
def WellFormedSchema (s : Schema) : Prop :=
  (∀ v issues, s.parse v = .zodError issues → issues ≠ []) ∧
  (∀ v issues, s.parseAsync v = .zodError issues → issues ≠ [])

/-- The spec's result invariant: exactly one of `data` / `errors` is populated,
with `errors` non-empty on failure. -/
def ExactlyOnePopulated (r : ValidationResult) : Prop :=
  (r.success = true ∧ r.data.isSome ∧ r.errors = none) ∨
  (r.success = false ∧ r.data = none ∧ ∃ errs, r.errors = some errs ∧ errs ≠ [])

lemma wellFormed_rejectSchema : WellFormedSchema rejectSchema := by
  constructor <;> intro v issues h <;>
    · simp only [rejectSchema] at h
      cases h
      simp

lemma wellFormed_idSchema : WellFormedSchema idSchema := by
  constructor <;> intro v issues h <;> simp [idSchema] at h

lemma validate_exactlyOne (s : Schema)
    (hs : ∀ v issues, s.parse v = .zodError issues → issues ≠ []) (v : Value) :
    ExactlyOnePopulated (validate s v) := by
  cases h : s.parse v with
  | ok d =>
      left
      simp [validate, h]
  | zodError issues =>
      right
      refine ⟨by simp [validate, h], by simp [validate, h],
        normalizeIssues issues, by simp [validate, h], ?_⟩
      have hne := hs v issues h
      simp [normalizeIssues, hne]
  | thrown =>
      right
      exact ⟨by simp [validate, h], by simp [validate, h],
        [unknownErrorDetail], by simp [validate, h], by simp⟩

lemma validateAsync_exactlyOne (s : Schema)
    (hs : ∀ v issues, s.parseAsync v = .zodError issues → issues ≠ []) (v : Value) :
    ExactlyOnePopulated (validateAsync s v) := by
  cases h : s.parseAsync v with
  | ok d =>
      left
      simp [validateAsync, h]
  | zodError issues =>
      right
      refine ⟨by simp [validateAsync, h], by simp [validateAsync, h],
        normalizeIssues issues, by simp [validateAsync, h], ?_⟩
      have hne := hs v issues h
      simp [normalizeIssues, hne]
  | thrown =>
      right
      exact ⟨by simp [validateAsync, h], by simp [validateAsync, h],
        [unknownErrorDetail], by simp [validateAsync, h], by simp⟩

lemma validate_success_shape (s : Schema) (v : Value)
    (h : (validate s v).success = true) :
    ∃ d, s.parse v = .ok d ∧ validate s v = { success := true, data := some d } := by
  cases hp : s.parse v with
  | ok d => exact ⟨d, rfl, by simp [validate, hp]⟩
  | zodError issues => simp [validate, hp] at h
  | thrown => simp [validate, hp] at h

lemma validate_failure_shape (s : Schema) (v : Value)
    (h : (validate s v).success = false) :
    ∃ errs, validate s v = { success := false, data := none, errors := some errs } := by
  cases hp : s.parse v with
  | ok d => simp [validate, hp] at h
  | zodError issues => exact ⟨normalizeIssues issues, by simp [validate, hp]⟩
  | thrown => exact ⟨[unknownErrorDetail], by simp [validate, hp]⟩

/-- Declarative per-rule contribution of `validateWithCrossFields`: nothing
when the condition holds, otherwise one detail per named field. -/
def ruleErrors (data : Value) (rule : CrossFieldRule) : List ValidationErrorDetail :=
  if rule.condition data then [] else rule.fields.map (crossDetail rule.message)

lemma crossStep_foldl (data : Value) (rules : List CrossFieldRule)
    (init : List ValidationErrorDetail) :
    rules.foldl (crossStep data) init = init ++ (rules.map (ruleErrors data)).flatten := by
  induction rules generalizing init with
  | nil => simp
  | cons r rs ih =>
      rw [List.foldl_cons, ih]
      by_cases h : r.condition data <;>
        simp [crossStep, ruleErrors, h, List.append_assoc]

/-- Declarative per-key error contribution of `validateMultiple`. -/
def multiEntryErrors (data : Value) (entry : String × Schema) :
    List ValidationErrorDetail :=
  let result := validate entry.2 (data.getKey entry.1)
  if !result.success && result.errors.isSome then
    (result.errors.getD []).map (keyedDetail entry.1)
  else []

/-- Declarative per-key data contribution of `validateMultiple`. -/
def multiEntryData (data : Value) (entry : String × Schema) :
    List (String × Value) :=
  let result := validate entry.2 (data.getKey entry.1)
  if !result.success && result.errors.isSome then []
  else
    match result.data with
    | some d => if d.truthy then [(entry.1, d)] else []
    | none => []

lemma multiStep_eq (data : Value)
    (acc : List ValidationErrorDetail × List (String × Value))
    (entry : String × Schema) :
    multiStep data acc entry =
      (acc.1 ++ multiEntryErrors data entry, acc.2 ++ multiEntryData data entry) := by
  rcases acc with ⟨accE, accD⟩
  by_cases h : (!(validate entry.2 (data.getKey entry.1)).success &&
      (validate entry.2 (data.getKey entry.1)).errors.isSome) = true
  · simp [multiStep, multiEntryErrors, multiEntryData, h]
  · cases hd : (validate entry.2 (data.getKey entry.1)).data with
    | none => simp [multiStep, multiEntryErrors, multiEntryData, h, hd]
    | some d =>
        by_cases ht : d.truthy = true <;>
          simp [multiStep, multiEntryErrors, multiEntryData, h, hd, ht]

lemma multiStep_foldl (data : Value) (schemas : List (String × Schema))
    (init : List ValidationErrorDetail × List (String × Value)) :
    schemas.foldl (multiStep data) init =
      (init.1 ++ (schemas.map (multiEntryErrors data)).flatten,
       init.2 ++ (schemas.map (multiEntryData data)).flatten) := by
  induction schemas generalizing init with
  | nil => simp
  | cons e es ih =>
      rw [List.foldl_cons, multiStep_eq, ih]
      simp [List.append_assoc]

lemma validateMultiple_eq (schemas : List (String × Schema)) (data : Value) :
    validateMultiple schemas data =
      { success := ((schemas.map (multiEntryErrors data)).flatten).isEmpty
        data :=
          if ((schemas.map (multiEntryErrors data)).flatten).isEmpty
          then some (.vObj ((schemas.map (multiEntryData data)).flatten)) else none
        errors :=
          if ((schemas.map (multiEntryErrors data)).flatten).isEmpty then none
          else some ((schemas.map (multiEntryErrors data)).flatten) } := by
  unfold validateMultiple
  rw [multiStep_foldl]
  simp

lemma validateMultiple_exactlyOne (schemas : List (String × Schema)) (data : Value) :
    ExactlyOnePopulated (validateMultiple schemas data) := by
  rw [validateMultiple_eq]
  by_cases h : ((schemas.map (multiEntryErrors data)).flatten).isEmpty = true
  · left
    simp [h]
  · right
    have hne : (schemas.map (multiEntryErrors data)).flatten ≠ [] := by
      intro hnil
      exact h (by simp [hnil])
    exact ⟨by simp [h], by simp [h],
      (schemas.map (multiEntryErrors data)).flatten, by simp [h], hne⟩

lemma partialValidate_shape (s : Schema) (v : Value) (fs : Option (List String)) :
    partialValidate s v fs = validate s v ∨
    (∃ fl, fs = some fl ∧ fl ≠ [] ∧ ∃ errs, (validate s v).errors = some errs ∧
      partialValidate s v fs =
        { success := (validate s v).success
          data := (validate s v).data
          errors := some (errs.filter (fun e => fl.contains e.field)) }) := by
  rcases fs with _ | fl
  · left
    rfl
  · by_cases hemp : fl.isEmpty = true
    · left
      simp [partialValidate, hemp]
    · cases herr : (validate s v).errors with
      | none =>
          left
          simp [partialValidate, hemp, herr]
      | some errs =>
          right
          refine ⟨fl, rfl, ?_, errs, rfl, ?_⟩
          · intro hnil
            exact hemp (by simp [hnil])
          · simp [partialValidate, hemp, herr]

lemma validateWithCrossFields_base_failure (s : Schema) (v : Value)
    (rules : List CrossFieldRule) (h : (validate s v).success = false) :
    validateWithCrossFields s v rules =
      { success := false
        data := none
        errors := some ((validate s v).errors.getD [])
        fieldDependencies := ruleDeps rules } := by
  unfold validateWithCrossFields
  simp [h]

lemma validateWithCrossFields_falsy (s : Schema) (v : Value)
    (rules : List CrossFieldRule) (h : (validate s v).success = true)
    (ht : v.truthy = false) :
    validateWithCrossFields s v rules =
      { success := true
        data := (validate s v).data
        errors := some ((validate s v).errors.getD [])
        fieldDependencies := ruleDeps rules } := by
  unfold validateWithCrossFields
  simp [h, ht]

lemma validateWithCrossFields_truthy (s : Schema) (v : Value)
    (rules : List CrossFieldRule) (h : (validate s v).success = true)
    (ht : v.truthy = true) :
    validateWithCrossFields s v rules =
      { success := ((rules.map (ruleErrors v)).flatten).isEmpty
        data :=
          if ((rules.map (ruleErrors v)).flatten).isEmpty
          then (validate s v).data else none
        errors := some ((validate s v).errors.getD [] ++ (rules.map (ruleErrors v)).flatten)
        fieldDependencies := ruleDeps rules } := by
  unfold validateWithCrossFields
  simp [h, ht, crossStep_foldl]

/-! ### Claims about the core validator -/

/-- Claim C1 (code bug evidence): on a rejected value, `validateOrThrow`
propagates the raw engine `ZodError` instead of the `ValidationError` its own
doc comment promises; a `ZodError` is never a `ValidationError`, and the
`ValidationError` the claim describes would have carried the structured detail
list and the `"x: Required"` message. -/
theorem validateOrThrow_raises_raw_engine_error :
    validateOrThrow rejectSchema (.vNum 3) = .error (.zodErr [exIssue]) ∧
    (∀ e : ValidationError,
      ThrownError.zodErr [exIssue] ≠ ThrownError.validationErr e) ∧
    (ValidationError.make (normalizeIssues [exIssue]) none).message = "x: Required" ∧
    (ValidationError.make (normalizeIssues [exIssue]) none).errors =
      [{ field := "x", message := "Required", code := "invalid_type" }] := by
  refine ⟨rfl, fun e h => ThrownError.noConfusion h, rfl, rfl⟩

/-- Claim C4: whenever schema application throws a non-`ZodError` exception,
`validate` and `validateAsync` return the single synthetic `UNKNOWN_ERROR`
detail instead of propagating it, and ordinary violation lists are returned as
normal Failure values (both functions are total, so nothing is ever thrown). -/
theorem unknown_error_fallback (s : Schema) (v : Value) :
    (s.parse v = .thrown →
      validate s v =
        { success := false, data := none, errors := some [unknownErrorDetail] }) ∧
    (s.parseAsync v = .thrown →
      validateAsync s v =
        { success := false, data := none, errors := some [unknownErrorDetail] }) ∧
    (∀ issues, s.parse v = .zodError issues →
      validate s v =
        { success := false, data := none, errors := some (normalizeIssues issues) }) ∧
    (∀ issues, s.parseAsync v = .zodError issues →
      validateAsync s v =
        { success := false, data := none, errors := some (normalizeIssues issues) }) := by
  refine ⟨fun h => ?_, fun h => ?_, fun issues h => ?_, fun issues h => ?_⟩ <;>
    simp [validate, validateAsync, h]

/-- Witness for C4 at the always-throwing schema. -/
theorem unknown_error_fallback_witness :
    validate throwSchema (.vNum 0) =
      { success := false, data := none, errors := some [unknownErrorDetail] } :=
  (unknown_error_fallback throwSchema (.vNum 0)).1 rfl

/-- Claim C2 (counterexample): on a successful `validateWithCrossFields` call
the `errors` property is still present — it holds the empty list — so the
"no errors field on success" half of the invariant fails for this operation. -/
theorem crossFields_success_carries_errors_field :
    (validateWithCrossFields idSchema (.vNum 1) []).success = true ∧
    (validateWithCrossFields idSchema (.vNum 1) []).errors = some [] :=
  ⟨rfl, rfl⟩

/-- Claim C2 (amended): the exactly-one-of-`data`/`errors` invariant holds for
`validate`, `validateAsync`, `validateConditional`, every element of
`validateBatch` and `validateMultiple`.  `partialValidate` preserves it on
success, but on failure its (present) error list may have been filtered down
to empty.  `validateWithCrossFields` always includes the `errors` property,
which holds the empty list exactly on success, while `data` alone follows the
invariant. -/
theorem result_population_invariant (s : Schema) (hs : WellFormedSchema s) (v : Value) :
    ExactlyOnePopulated (validate s v) ∧
    ExactlyOnePopulated (validateAsync s v) ∧
    (∀ cond, ExactlyOnePopulated (validateConditional s v cond)) ∧
    (∀ items, ∀ r ∈ validateBatch s items, ExactlyOnePopulated r) ∧
    (∀ schemas : List (String × Schema), ∀ w : Value,
      ExactlyOnePopulated (validateMultiple schemas w)) ∧
    (∀ fs, (partialValidate s v fs).success = true →
      (partialValidate s v fs).data.isSome ∧ (partialValidate s v fs).errors = none) ∧
    (∀ fs, (partialValidate s v fs).success = false →
      (partialValidate s v fs).data = none ∧ (partialValidate s v fs).errors.isSome) ∧
    (∀ rules, ∃ errs, (validateWithCrossFields s v rules).errors = some errs ∧
      ((validateWithCrossFields s v rules).success = true ↔ errs = []) ∧
      ((validateWithCrossFields s v rules).success = true →
        (validateWithCrossFields s v rules).data.isSome) ∧
      ((validateWithCrossFields s v rules).success = false →
        (validateWithCrossFields s v rules).data = none)) := by
  have hval := validate_exactlyOne s hs.1 v
  refine ⟨hval, validateAsync_exactlyOne s hs.2 v, ?_, ?_, ?_, ?_, ?_, ?_⟩
  · intro cond
    by_cases hc : cond v = true
    · rw [show validateConditional s v cond = validate s v by simp [validateConditional, hc]]
      exact hval
    · left
      refine ⟨?_, ?_, ?_⟩ <;>
        simp [validateConditional, Bool.eq_false_iff.mpr hc]
  · intro items r hr
    rcases List.mem_map.mp hr with ⟨item, _, hitem⟩
    rw [← hitem]
    exact validate_exactlyOne s hs.1 item
  · intro schemas w
    exact validateMultiple_exactlyOne schemas w
  · intro fs hsucc
    rcases partialValidate_shape s v fs with heq | ⟨fl, _, _, errs, herrs, heq⟩
    · rw [heq] at hsucc ⊢
      rcases hval with ⟨_, hd, he⟩ | ⟨hfail, _, _⟩
      · exact ⟨hd, he⟩
      · rw [hfail] at hsucc
        cases hsucc
    · rw [heq] at hsucc ⊢
      simp only at hsucc
      rcases hval with ⟨_, _, he⟩ | ⟨hfail, _, _⟩
      · rw [he] at herrs
        cases herrs
      · rw [hfail] at hsucc
        cases hsucc
  · intro fs hfl
    rcases partialValidate_shape s v fs with heq | ⟨fl, _, _, errs, herrs, heq⟩
    · rw [heq] at hfl ⊢
      rcases hval with ⟨hok, _, _⟩ | ⟨_, hdn, errs2, herrs2, _⟩
      · rw [hok] at hfl
        cases hfl
      · exact ⟨hdn, by simp [herrs2]⟩
    · rw [heq]
      refine ⟨?_, by simp⟩
      rcases hval with ⟨_, _, he⟩ | ⟨_, hdn, _, _, _⟩
      · rw [he] at herrs
        cases herrs
      · simpa using hdn
  · intro rules
    rcases hval with ⟨hok, hd, he⟩ | ⟨hfail, hdn, errs, herrs, hne⟩
    · by_cases ht : v.truthy = true
      · rw [validateWithCrossFields_truthy s v rules hok ht]
        refine ⟨(rules.map (ruleErrors v)).flatten, by simp [he], ?_, ?_, ?_⟩
        · exact List.isEmpty_iff
        · intro hsucc
          simp only at hsucc
          simp [hsucc, hd]
        · intro hfalse
          simp only at hfalse
          simp [hfalse]
      · rw [validateWithCrossFields_falsy s v rules hok (Bool.eq_false_iff.mpr ht)]
        exact ⟨[], by simp [he], by simp, fun _ => by simpa using hd, fun hfalse => by cases hfalse⟩
    · rw [validateWithCrossFields_base_failure s v rules hfail]
      refine ⟨errs, by simp [herrs], by simp [hne], by simp, fun _ => rfl⟩

/-- Witness for C2's amended invariant at a concrete rejecting schema. -/
theorem result_population_invariant_witness :
    ExactlyOnePopulated (validate rejectSchema (.vNum 0)) :=
  (result_population_invariant rejectSchema
    (by
      constructor <;> intro v issues h <;>
        · simp only [rejectSchema] at h
          cases h
          simp)
    (.vNum 0)).1

/-- Claim C3 (counterexample): with violations only on field `b` and the field
list `["a"]`, the filtered error list is empty yet `partialValidate` still
reports failure — success is not "exactly when the filtered error list is
empty". -/
theorem partialValidate_success_not_post_filter :
    partialValidate rejectBSchema (.vNum 0) (some ["a"]) =
      { success := false, data := none, errors := some [] } ∧
    (validate rejectBSchema (.vNum 0)).errors =
      some [{ field := "b", message := "Too small", code := "too_small" }] :=
  ⟨rfl, rfl⟩

/-- Claim C3 (amended): with a non-empty field list, `partialValidate` runs the
full `validate`, keeps its success flag and data unchanged, and only filters
the error list to entries whose field is in the given list — so success is
reported exactly when the full, unfiltered validation succeeded, even though
violations on fields outside the list are suppressed from the error list. -/
theorem partialValidate_filters_errors_keeps_success (s : Schema) (v : Value)
    (fs : List String) (h : fs ≠ []) :
    (partialValidate s v (some fs)).success = (validate s v).success ∧
    (partialValidate s v (some fs)).data = (validate s v).data ∧
    (partialValidate s v (some fs)).errors =
      (validate s v).errors.map (fun errs => errs.filter (fun e => fs.contains e.field)) := by
  have hemp : fs.isEmpty = false := by
    cases fs with
    | nil => exact absurd rfl h
    | cons a l => rfl
  cases herr : (validate s v).errors with
  | none => refine ⟨?_, ?_, ?_⟩ <;> simp [partialValidate, hemp, herr]
  | some errs => refine ⟨?_, ?_, ?_⟩ <;> simp [partialValidate, hemp, herr]

/-- Witness for C3's amended claim at a concrete schema and field list. -/
theorem partialValidate_filters_errors_keeps_success_witness :
    (partialValidate rejectBSchema (.vNum 0) (some ["a"])).success =
      (validate rejectBSchema (.vNum 0)).success ∧
    (partialValidate rejectBSchema (.vNum 0) (some ["a"])).errors =
      (validate rejectBSchema (.vNum 0)).errors.map
        (fun errs => errs.filter (fun e => (["a"] : List String).contains e.field)) := by
  have h := partialValidate_filters_errors_keeps_success rejectBSchema (.vNum 0) ["a"]
    (by simp)
  exact ⟨h.1, h.2.2⟩

/-- Claim C5: `isValid` agrees with `validate(...).success` on every schema and
value, including schemas whose application throws a non-`ZodError` exception
(both functions are total, so `isValid` never throws). -/
theorem isValid_eq_validate_success (s : Schema) (v : Value) :
    isValid s v = (validate s v).success := by
  unfold isValid validate
  cases s.parse v <;> rfl

/-- Claim C8: when the condition rejects the value, `validateConditional`
returns Success carrying the untouched input value — for every schema, so also
for schemas that would reject it — and when the condition accepts the value it
returns exactly `validate schema value`. -/
theorem validateConditional_spec (s : Schema) (v : Value) (cond : Value → Bool) :
    (cond v = false →
      validateConditional s v cond =
        { success := true, data := some v, errors := none }) ∧
    (cond v = true → validateConditional s v cond = validate s v) := by
  constructor <;> intro h <;> simp [validateConditional, h]

/-- Claim C6 (counterexample): the schema accepts the falsy input `0`, yet a
rule whose condition is constantly false is never evaluated — the guard is
`baseResult.success && data`, so a falsy input skips all rules and the call
succeeds with an empty error list. -/
theorem crossFields_skips_rules_on_falsy_input :
    (validateWithCrossFields idSchema (.vNum 0)
      [{ condition := fun _ => false, message := "must match", fields := ["f"] }]).success
        = true ∧
    (validateWithCrossFields idSchema (.vNum 0)
      [{ condition := fun _ => false, message := "must match", fields := ["f"] }]).errors
        = some [] :=
  ⟨rfl, rfl⟩

lemma ruleErrors_eq_nil_iff (v : Value) (rule : CrossFieldRule) :
    ruleErrors v rule = [] ↔ (rule.condition v = true ∨ rule.fields = []) := by
  unfold ruleErrors
  by_cases h : rule.condition v <;> simp [h]

lemma crossErrors_nil_iff (v : Value) (rules : List CrossFieldRule) :
    (rules.map (ruleErrors v)).flatten = [] ↔
      ∀ rule ∈ rules, rule.condition v = true ∨ rule.fields = [] := by
  rw [List.flatten_eq_nil_iff]
  constructor
  · intro h rule hr
    exact (ruleErrors_eq_nil_iff v rule).mp (h _ (List.mem_map_of_mem _ hr))
  · intro h l hl
    rcases List.mem_map.mp hl with ⟨rule, hr, rfl⟩
    exact (ruleErrors_eq_nil_iff v rule).mpr (h rule hr)

/-- Claim C6 (amended): rules are evaluated against the original input only
when base validation succeeded *and the input value is truthy*.  On base
failure the base errors are returned unchanged (for any rule list); on a falsy
input the call succeeds with no cross-field error; on a truthy input each rule
whose condition is false contributes one detail per named field with the
rule's message and the fixed code, and the call succeeds iff every rule either
passes or names no fields. -/
theorem validateWithCrossFields_characterization (s : Schema) (v : Value)
    (rules : List CrossFieldRule) :
    ((validate s v).success = false →
      (validateWithCrossFields s v rules).success = false ∧
      (validateWithCrossFields s v rules).data = none ∧
      (validateWithCrossFields s v rules).errors =
        some ((validate s v).errors.getD [])) ∧
    ((validate s v).success = true → v.truthy = false →
      (validateWithCrossFields s v rules).success = true ∧
      (validateWithCrossFields s v rules).data = (validate s v).data ∧
      (validateWithCrossFields s v rules).errors =
        some ((validate s v).errors.getD [])) ∧
    ((validate s v).success = true → v.truthy = true →
      (validateWithCrossFields s v rules).errors =
        some ((validate s v).errors.getD [] ++ (rules.map (ruleErrors v)).flatten) ∧
      ((validateWithCrossFields s v rules).success = true ↔
        ∀ rule ∈ rules, rule.condition v = true ∨ rule.fields = [])) ∧
    (validateWithCrossFields s v rules).fieldDependencies = ruleDeps rules := by
  refine ⟨fun hfail => ?_, fun hok ht => ?_, fun hok ht => ?_, ?_⟩
  · rw [validateWithCrossFields_base_failure s v rules hfail]
    exact ⟨rfl, rfl, rfl⟩
  · rw [validateWithCrossFields_falsy s v rules hok ht]
    exact ⟨rfl, rfl, rfl⟩
  · rw [validateWithCrossFields_truthy s v rules hok ht]
    refine ⟨rfl, ?_⟩
    simp only [List.isEmpty_iff]
    exact crossErrors_nil_iff v rules
  · unfold validateWithCrossFields
    by_cases hb : (validate s v).success = true <;> by_cases ht : v.truthy = true <;>
      simp [hb, ht, Bool.eq_false_iff]

/-- Witness for C6's amended claim: a truthy input with one failing rule over
two fields yields exactly the two cross-field details. -/
theorem validateWithCrossFields_characterization_witness :
    (validateWithCrossFields idSchema (.vStr "v")
      [{ condition := fun _ => false, message := "must match",
         fields := ["password", "confirm"] }]).errors =
      some ((validate idSchema (.vStr "v")).errors.getD [] ++
        (([{ condition := fun _ => false, message := "must match",
             fields := ["password", "confirm"] }] :
           List CrossFieldRule).map (ruleErrors (.vStr "v"))).flatten) ∧
    ((validateWithCrossFields idSchema (.vStr "v")
      [{ condition := fun _ => false, message := "must match",
         fields := ["password", "confirm"] }]).success = true ↔
      ∀ rule ∈ ([{ condition := fun _ => false, message := "must match",
                   fields := ["password", "confirm"] }] : List CrossFieldRule),
        rule.condition (.vStr "v") = true ∨ rule.fields = []) :=
  (validateWithCrossFields_characterization idSchema (.vStr "v")
    [{ condition := fun _ => false, message := "must match",
       fields := ["password", "confirm"] }]).2.2.1 rfl rfl

lemma multiEntryErrors_spec (data : Value) (e : String × Schema) :
    multiEntryErrors data e =
      if (validate e.2 (data.getKey e.1)).success = true then []
      else ((validate e.2 (data.getKey e.1)).errors.getD []).map (keyedDetail e.1) := by
  by_cases hs : (validate e.2 (data.getKey e.1)).success = true
  · rcases validate_success_shape _ _ hs with ⟨d, _, heq⟩
    simp [multiEntryErrors, heq]
  · rcases validate_failure_shape _ _ (Bool.eq_false_iff.mpr hs) with ⟨errs, heq⟩
    simp [multiEntryErrors, heq]

lemma multiEntryData_spec (data : Value) (e : String × Schema) :
    multiEntryData data e =
      match (validate e.2 (data.getKey e.1)).data with
      | some d => if d.truthy then [(e.1, d)] else []
      | none => [] := by
  by_cases hs : (validate e.2 (data.getKey e.1)).success = true
  · rcases validate_success_shape _ _ hs with ⟨d, _, heq⟩
    simp [multiEntryData, heq]
  · rcases validate_failure_shape _ _ (Bool.eq_false_iff.mpr hs) with ⟨errs, heq⟩
    simp [multiEntryData, heq]

lemma multiEntryErrors_nil_iff (data : Value) (e : String × Schema)
    (hWF : ∀ v issues, (e.2).parse v = .zodError issues → issues ≠ []) :
    multiEntryErrors data e = [] ↔
      (validate e.2 (data.getKey e.1)).success = true := by
  rcases validate_exactlyOne e.2 hWF (data.getKey e.1) with
    ⟨hok, _, _⟩ | ⟨hfail, _, errs, herrs, hne⟩
  · rw [multiEntryErrors_spec]
    simp [hok]
  · rw [multiEntryErrors_spec]
    simp [hfail, herrs, hne]

/-- Claim C7 (counterexample): the key `a` validates successfully to the falsy
value `0`, but `else if (result.data)` drops it, so the merged output object
is empty instead of carrying `a: 0`. -/
theorem validateMultiple_drops_falsy_success_value :
    validateMultiple [("a", idSchema)] (.vObj [("a", .vNum 0)]) =
      { success := true, data := some (.vObj []), errors := none } ∧
    some (Value.vObj []) ≠ some (Value.vObj [("a", Value.vNum 0)]) :=
  ⟨rfl, by simp⟩

/-- Claim C7 (amended): `validateMultiple` validates `value[key]` against each
key's schema independently; a successful key contributes its validated value
under that key *only when that value is truthy* (falsy validated values are
silently dropped from the output object); every failing key contributes its
errors with the `"<key>."` field re-addressing; overall success holds iff zero
keys failed, and the overall data is the merged object of the successful keys
with truthy values. -/
theorem validateMultiple_characterization (schemas : List (String × Schema))
    (data : Value)
    (hWF : ∀ e ∈ schemas, ∀ v issues, (e.2).parse v = .zodError issues → issues ≠ []) :
    ((validateMultiple schemas data).success = true ↔
      ∀ e ∈ schemas, (validate e.2 (data.getKey e.1)).success = true) ∧
    ((validateMultiple schemas data).success = true →
      (validateMultiple schemas data).errors = none ∧
      (validateMultiple schemas data).data =
        some (.vObj ((schemas.map (fun e =>
          match (validate e.2 (data.getKey e.1)).data with
          | some d => if d.truthy then [(e.1, d)] else []
          | none => [])).flatten))) ∧
    ((validateMultiple schemas data).success = false →
      (validateMultiple schemas data).data = none ∧
      (validateMultiple schemas data).errors =
        some ((schemas.map (fun e =>
          if (validate e.2 (data.getKey e.1)).success = true then []
          else ((validate e.2 (data.getKey e.1)).errors.getD []).map
            (keyedDetail e.1))).flatten)) := by
  have hE : ∀ e ∈ schemas, multiEntryErrors data e = [] ↔
      (validate e.2 (data.getKey e.1)).success = true :=
    fun e he => multiEntryErrors_nil_iff data e (hWF e he)
  have hEe : (schemas.map (multiEntryErrors data)).flatten = [] ↔
      ∀ e ∈ schemas, (validate e.2 (data.getKey e.1)).success = true := by
    rw [List.flatten_eq_nil_iff]
    constructor
    · intro h e he
      exact (hE e he).mp (h _ (List.mem_map_of_mem _ he))
    · intro h l hl
      rcases List.mem_map.mp hl with ⟨e, he, rfl⟩
      exact (hE e he).mpr (h e he)
  have hData : (schemas.map (multiEntryData data)).flatten =
      (schemas.map (fun e =>
        match (validate e.2 (data.getKey e.1)).data with
        | some d => if d.truthy then [(e.1, d)] else []
        | none => [])).flatten := by
    congr 1
    exact List.map_congr_left (fun e _ => multiEntryData_spec data e)
  have hErr : (schemas.map (multiEntryErrors data)).flatten =
      (schemas.map (fun e =>
        if (validate e.2 (data.getKey e.1)).success = true then []
        else ((validate e.2 (data.getKey e.1)).errors.getD []).map
          (keyedDetail e.1))).flatten := by
    congr 1
    exact List.map_congr_left (fun e _ => multiEntryErrors_spec data e)
  rw [validateMultiple_eq]
  refine ⟨?_, ?_, ?_⟩
  · simp only [List.isEmpty_iff]
    exact hEe
  · intro hsucc
    simp only [List.isEmpty_iff] at hsucc
    refine ⟨by simp [hsucc], ?_⟩
    simp only [hsucc, List.isEmpty_nil, if_true, Option.some.injEq, Value.vObj.injEq]
    exact hData
  · intro hfl
    simp only at hfl
    refine ⟨by simp [hfl], ?_⟩
    simp only [hfl, Bool.false_eq_true, if_false, Option.some.injEq]
    exact hErr

/-- Witness for C7's amended claim: one key validating successfully. -/
theorem validateMultiple_characterization_witness :
    (validateMultiple [("a", positiveSchema)] (.vObj [("a", .vNum 2)])).success = true ↔
      ∀ e ∈ [("a", positiveSchema)],
        (validate e.2 ((Value.vObj [("a", .vNum 2)]).getKey e.1)).success = true :=
  (validateMultiple_characterization [("a", positiveSchema)] (.vObj [("a", .vNum 2)])
    (by
      intro e he v issues h
      simp only [List.mem_singleton] at he
      subst he
      rw [positiveSchema_issues v issues h]
      simp)).1

/-- Claim C10: when every key of the schema map validates successfully, the
overall result is a success with no errors, and the merged output object is
built from exactly the keys whose validated value is truthy — a successful key
with a falsy validated value is omitted while contributing no errors. -/
theorem validateMultiple_falsy_success_omitted (schemas : List (String × Schema))
    (data : Value)
    (hall : ∀ e ∈ schemas, (validate e.2 (data.getKey e.1)).success = true) :
    (validateMultiple schemas data).success = true ∧
    (validateMultiple schemas data).errors = none ∧
    (validateMultiple schemas data).data =
      some (.vObj ((schemas.map (fun e =>
        match (validate e.2 (data.getKey e.1)).data with
        | some d => if d.truthy then [(e.1, d)] else []
        | none => [])).flatten)) ∧
    (∀ e ∈ schemas, ∀ d, (validate e.2 (data.getKey e.1)).data = some d →
      d.truthy = false →
      multiEntryData data e = [] ∧ multiEntryErrors data e = []) := by
  have hnil : (schemas.map (multiEntryErrors data)).flatten = [] := by
    rw [List.flatten_eq_nil_iff]
    intro l hl
    rcases List.mem_map.mp hl with ⟨e, he, rfl⟩
    rw [multiEntryErrors_spec]
    simp [hall e he]
  have hData : (schemas.map (multiEntryData data)).flatten =
      (schemas.map (fun e =>
        match (validate e.2 (data.getKey e.1)).data with
        | some d => if d.truthy then [(e.1, d)] else []
        | none => [])).flatten := by
    congr 1
    exact List.map_congr_left (fun e _ => multiEntryData_spec data e)
  rw [validateMultiple_eq]
  refine ⟨by simp [hnil], by simp [hnil], by simp [hnil, hData], ?_⟩
  intro e he d hd ht
  constructor
  · rw [multiEntryData_spec, hd]
    simp [ht]
  · rw [multiEntryErrors_spec]
    simp [hall e he]

/-- Witness for C10: the key `a` succeeds with the falsy value `0`; the call
succeeds with no errors while the output object omits `a`. -/
theorem validateMultiple_falsy_success_omitted_witness :
    (validateMultiple [("a", idSchema)] (.vObj [("a", .vNum 0)])).success = true ∧
    (validateMultiple [("a", idSchema)] (.vObj [("a", .vNum 0)])).errors = none :=
  have h := validateMultiple_falsy_success_omitted [("a", idSchema)]
    (.vObj [("a", .vNum 0)])
    (by
      intro e he
      simp only [List.mem_singleton] at he
      subst he
      rfl)
  ⟨h.1, h.2.1⟩

/-- Witness for C8: a false condition bypasses a schema that rejects the
value. -/
theorem validateConditional_spec_witness :
    validateConditional rejectSchema (.vNum 7) (fun _ => false) =
      { success := true, data := some (.vNum 7), errors := none } ∧
    (validate rejectSchema (.vNum 7)).success = false :=
  ⟨(validateConditional_spec rejectSchema (.vNum 7) (fun _ => false)).1 rfl, rfl⟩

/-- The `"<index>."`-re-addressed error list of one batch item, as the spec
describes it. -/
def itemErrors (schema : Schema) (index : Nat) (item : Value) :
    List ValidationErrorDetail :=
  match schema.parse item with
  | .zodError issues =>
      issues.map (fun i =>
        { field := toString index ++ "." ++ String.intercalate "." i.path
          message := i.message, code := i.code })
  | _ => []

/-- The per-item detail record of the batch validator, stated declaratively
from the spec's wording (success flag, validated value or `null`, re-addressed
errors). -/
def batchItemSpec (schema : Schema) (index : Nat) (item : Value) :
    BatchItemDetail :=
  { index := index
    success := isValid schema item
    data :=
      match schema.parse item with
      | .ok v => v
      | _ => .vNull
    errors := itemErrors schema index item }

lemma batchItem_eq_spec (s : Schema) (index : Nat) (item : Value)
    (h : s.parse item ≠ .thrown) :
    batchItem s index item = some (batchItemSpec s index item) := by
  cases hp : s.parse item with
  | ok v => simp [batchItem, batchItemSpec, itemErrors, isValid, hp]
  | zodError issues => simp [batchItem, batchItemSpec, itemErrors, isValid, hp]
  | thrown => exact absurd hp h

lemma mapM_eq_some_map {α β : Type} (f : α → Option β) (g : α → β) (l : List α)
    (h : ∀ a ∈ l, f a = some (g a)) : l.mapM f = some (l.map g) := by
  induction l with
  | nil => rfl
  | cons a l ih =>
      have ha := h a (List.mem_cons_self a l)
      have ih2 := ih (fun x hx => h x (List.mem_cons_of_mem a hx))
      rw [List.map_cons]
      rw [List.mapM_cons, ha, ih2]
      rfl

lemma snd_mem_of_mem_enum {α : Type} {l : List α} {p : Nat × α}
    (hp : p ∈ l.enum) : p.2 ∈ l := by
  have hg := List.mem_enum_iff_getElem?.mp hp
  exact List.getElem?_mem hg

lemma batchSpec_filter_data (s : Schema) (l : List (Nat × Value)) :
    (((l.map (fun p => batchItemSpec s p.1 p.2)).filter
        (fun r => r.success)).map (fun r => r.data)) =
      l.filterMap (fun p =>
        match s.parse p.2 with
        | .ok v => some v
        | _ => none) := by
  induction l with
  | nil => rfl
  | cons p l ih =>
      cases hp : s.parse p.2 with
      | ok v =>
          have hsucc : (batchItemSpec s p.1 p.2).success = true := by
            simp [batchItemSpec, isValid, hp]
          have hdata : (batchItemSpec s p.1 p.2).data = v := by
            simp [batchItemSpec, hp]
          simp [List.filter_cons, hsucc, hdata, hp, ih]
      | zodError issues =>
          have hsucc : (batchItemSpec s p.1 p.2).success = false := by
            simp [batchItemSpec, isValid, hp]
          simp [List.filter_cons, hsucc, hp, ih]
      | thrown =>
          have hsucc : (batchItemSpec s p.1 p.2).success = false := by
            simp [batchItemSpec, isValid, hp]
          simp [List.filter_cons, hsucc, hp, ih]

/-- Claim C9: on item lists whose parsing never throws a non-`ZodError`
exception, the batch validator produced by `createBatchValidator` validates
each item independently, re-addresses its error fields with the `"<index>."`
re-addressing, succeeds exactly when the flat error list is empty, returns as
`data` the successful items' validated values in input order with failed items
omitted, and exposes the full per-item detail array. -/
theorem createBatchValidator_spec (s : Schema) (items : List Value)
    (h : ∀ it ∈ items, s.parse it ≠ .thrown) :
    ∃ outcome, createBatchValidator s items = some outcome ∧
      outcome.details = items.enum.map (fun p => batchItemSpec s p.1 p.2) ∧
      outcome.errors = (items.enum.map (fun p => itemErrors s p.1 p.2)).flatten ∧
      (outcome.success = true ↔ outcome.errors = []) ∧
      outcome.data = items.enum.filterMap (fun p =>
        match s.parse p.2 with
        | .ok v => some v
        | _ => none) := by
  have hmapm : items.enum.mapM (fun p => batchItem s p.1 p.2) =
      some (items.enum.map (fun p => batchItemSpec s p.1 p.2)) := by
    apply mapM_eq_some_map
    intro p hp
    exact batchItem_eq_spec s p.1 p.2 (h p.2 (snd_mem_of_mem_enum hp))
  have hcall : createBatchValidator s items =
      some { success := (((items.enum.map (fun p => batchItemSpec s p.1 p.2)).map
               (fun r => r.errors)).flatten).isEmpty
             data := ((items.enum.map (fun p => batchItemSpec s p.1 p.2)).filter
               (fun r => r.success)).map (fun r => r.data)
             errors := ((items.enum.map (fun p => batchItemSpec s p.1 p.2)).map
               (fun r => r.errors)).flatten
             details := items.enum.map (fun p => batchItemSpec s p.1 p.2) } := by
    unfold createBatchValidator
    rw [hmapm]
  have herrs : ((items.enum.map (fun p => batchItemSpec s p.1 p.2)).map
      (fun r => r.errors)).flatten =
      (items.enum.map (fun p => itemErrors s p.1 p.2)).flatten := by
    rw [List.map_map]
    rfl
  refine ⟨_, hcall, rfl, herrs, ?_, ?_⟩
  · exact List.isEmpty_iff
  · exact batchSpec_filter_data s items.enum

/-- Witness for C9: item `0` fails at the re-addressed field `0.x`, item `1`
validates; the outcome's data keeps only the validated second item. -/
theorem createBatchValidator_spec_witness :
    ∃ outcome,
      createBatchValidator positiveSchema [.vNum 0, .vNum 1] = some outcome ∧
      outcome.details = ([.vNum 0, .vNum 1] : List Value).enum.map
        (fun p => batchItemSpec positiveSchema p.1 p.2) ∧
      outcome.errors = (([.vNum 0, .vNum 1] : List Value).enum.map
        (fun p => itemErrors positiveSchema p.1 p.2)).flatten ∧
      (outcome.success = true ↔ outcome.errors = []) ∧
      outcome.data = ([.vNum 0, .vNum 1] : List Value).enum.filterMap (fun p =>
        match positiveSchema.parse p.2 with
        | .ok v => some v
        | _ => none) :=
  createBatchValidator_spec positiveSchema [.vNum 0, .vNum 1]
    (by
      intro it hit
      rcases List.mem_pair.mp hit with rfl | rfl <;> simp [positiveSchema])

end Kitium
